import Mathlib

/-!
Shallow embedding of the go-balancer repository (a reverse-proxy HTTP load
balancer) and proofs about its specification claims.

The Go packages are translated as follows:
- `internal/errors/errors.go`    : `ErrorCode`, `HTTPStatusCode`
- `internal/pool` (server pool)  : `Backend`, `ServerPool` operations
- `internal/strategy/round_robin.go` : `NextBackend`
- `internal/config/validation.go`: `validationErrors`, `ValidateConfig`
- `internal/metrics/prometheus.go`: `Metrics`, record operations, `GetSnapshot`
- `internal/healthcheck/healthcheck.go` : `checkBackend`
- `internal/balancer/balancer.go`: `serveHTTP`

External stdlib effects (URL parsing, the HTTP client, clocks) are passed in
as explicit parameters or oracle functions; machine `int64` arithmetic on the
round-robin counter is modelled on `Int` with an explicit two's-complement
wrap.  Go maps from backend id to counter are modelled as total functions
`String → Int` defaulting to zero, matching Go's zero-value map reads.
-/

set_option linter.unusedVariables false

namespace GoBalancer

/-! ### Error taxonomy (`internal/errors/errors.go`) -/

/-- The error codes of the taxonomy, in declaration order.  In Go these are
`iota + 1000`, i.e. consecutive integers starting at 1000. -/
inductive ErrorCode where
  | ErrInvalidConfig
  | ErrInvalidPort
  | ErrInvalidBackend
  | ErrInvalidHealthCheck
  | ErrInvalidTimeout
  | ErrBackendUnavailable
  | ErrBackendTimeout
  | ErrBackendConnection
  | ErrBackendResponse
  | ErrNoHealthyBackends
  | ErrStrategyFailure
  | ErrPoolEmpty
  | ErrMetricsFailure
  | ErrHealthCheckFailed
  | ErrHealthCheckTimeout
  | ErrRequestTimeout
  | ErrRequestFailed
  | ErrResponseCopy
deriving DecidableEq, Repr

/-- `LoadBalancerError.HTTPStatusCode`: the switch in `errors.go` mapping each
code to an HTTP status. -/
def HTTPStatusCode (code : ErrorCode) : Nat :=
  match code with
  | .ErrInvalidConfig | .ErrInvalidPort | .ErrInvalidBackend
  | .ErrInvalidHealthCheck | .ErrInvalidTimeout => 400
  | .ErrBackendUnavailable | .ErrNoHealthyBackends => 503
  | .ErrBackendTimeout | .ErrRequestTimeout => 504
  | .ErrBackendConnection | .ErrBackendResponse => 502
  | .ErrStrategyFailure | .ErrPoolEmpty | .ErrMetricsFailure => 500
  | .ErrHealthCheckFailed | .ErrHealthCheckTimeout => 503
  | .ErrRequestFailed | .ErrResponseCopy => 500

/-! ### Backend pool (`internal/pool`) -/

/-- The result of Go's `net/url.Parse` on a backend URL string, keeping the
pieces the pool consumes: `u.Scheme`, `u.Host` and `u.Port()`.  The parser
itself is an external stdlib function and is passed in as a parameter
`parse : String → Except String ParsedURL` (the `String` error is the text of
the parse error). -/
structure ParsedURL where
  scheme : String
  host : String
  port : String
deriving DecidableEq, Repr

/-- `pool.Backend`: one registered server. -/
structure Backend where
  ID : String
  URL : ParsedURL
  Healthy : Bool
  Port : Int
deriving DecidableEq, Repr

/-- The backend slice owned by `pool.ServerPool` (the lock is a concurrency
artifact; operations here are the atomic mutations it guards). -/
abbrev ServerPool := List Backend

/-- `getPortFromURL`: default port derived from scheme when absent; `Atoi`
failure falls back to 80. -/
def getPortFromURL (u : ParsedURL) : Int :=
  if u.port = "" then
    if u.scheme = "https" then 443 else 80
  else
    match u.port.toNat? with
    | some p => (p : Int)
    | none => 80

/-- `ServerPool.AddBackend`: parse the URL (error is returned and the pool is
left unchanged), assign id `backend-(len+1)`, append with `Healthy = true`. -/
def AddBackend (parse : String → Except String ParsedURL)
    (sp : ServerPool) (backendURL : String) : Except String ServerPool :=
  match parse backendURL with
  | .error e => .error ("invalid backend URL " ++ backendURL ++ ": " ++ e)
  | .ok parsedURL =>
    .ok (sp ++ [{ ID := "backend-" ++ Nat.repr (sp.length + 1)
                , URL := parsedURL
                , Healthy := true
                , Port := getPortFromURL parsedURL }])

/-- `removeFromSlice`: bounds-checked removal at an index. -/
def removeFromSlice (slice : List Backend) (index : Nat) : List Backend :=
  if index < slice.length then slice.eraseIdx index else slice

/-- `ServerPool.RemoveBackend`: remove the first backend whose id matches,
reporting whether anything was removed. -/
def RemoveBackend (sp : ServerPool) (id : String) : ServerPool × Bool :=
  match sp.findIdx? (fun backend => backend.ID = id) with
  | some i => (removeFromSlice sp i, true)
  | none => (sp, false)

/-- `ServerPool.GetBackendByIndex`: bounds-checked read (`index >= 0 && index
< len`); the Go index is an `int`, so the model takes an `Int`. -/
def GetBackendByIndex (sp : ServerPool) (index : Int) : Option Backend :=
  if 0 ≤ index ∧ index < (sp.length : Int) then sp.get? index.toNat else none

/-- `ServerPool.GetHealthyBackendCount`. -/
def GetHealthyBackendCount (sp : ServerPool) : Nat :=
  (sp.filter (fun backend => backend.Healthy)).length

/-- `ServerPool.GetBackendCount`. -/
def GetBackendCount (sp : ServerPool) : Nat := sp.length

/-- `ServerPool.SetBackendHealth`: set the health flag of the first backend
whose id matches (the Go loop `break`s after the first match); no-op when the
id is absent. -/
def SetBackendHealth (sp : ServerPool) (id : String) (healthy : Bool) : ServerPool :=
  match sp with
  | [] => []
  | backend :: rest =>
    if backend.ID = id then { backend with Healthy := healthy } :: rest
    else backend :: SetBackendHealth rest id healthy

/-! ### Round-robin strategy (`internal/strategy/round_robin.go`) -/

/-- Two's-complement wrap of Go's `int64` addition result
(`atomic.AddInt64` wraps silently at `2^63`). -/
def wrap64 (x : Int) : Int := (x + 2 ^ 63) % 2 ^ 64 - 2 ^ 63

/-- The retry loop body of `RoundRobinStrategy.NextBackend`: up to
`backendCount` attempts, each atomically incrementing the counter (`next`),
indexing at `(next - 1) % backendCount` (Go's `%` is truncated division,
`Int.tmod`) and returning the fetched backend when present and healthy.
Returns the selected backend (if any) together with the counter value after
the increments performed. -/
def nextBackendLoop (sp : ServerPool) (counter : Int) : Nat → Option Backend × Int
  | 0 => (none, counter)
  | fuel + 1 =>
    let next := wrap64 (counter + 1)
    let index := Int.tmod (next - 1) (GetBackendCount sp : Int)
    match GetBackendByIndex sp index with
    | some backend =>
      if backend.Healthy then (some backend, next)
      else nextBackendLoop sp next fuel
    | none => nextBackendLoop sp next fuel

/-- `RoundRobinStrategy.NextBackend`: `nil` when the pool is empty, otherwise
the retry loop with `backendCount` attempts.  The strategy's mutable atomic
counter is threaded explicitly. -/
def NextBackend (sp : ServerPool) (counter : Int) : Option Backend × Int :=
  let backendCount := GetBackendCount sp
  if backendCount = 0 then (none, counter)
  else nextBackendLoop sp counter backendCount

/-! ### Metrics (`internal/metrics/prometheus.go`) -/

/-- `metrics.Metrics`: counters guarded by one lock.  The Go
`map[string]int64` maps are modelled as total functions defaulting to 0,
matching Go's zero-value read of a missing key. -/
structure Metrics where
  totalRequests : Int
  successfulRequests : Int
  failedRequests : Int
  backendRequests : String → Int
  backendFailures : String → Int
  healthCheckPasses : String → Int
  healthCheckFails : String → Int
  healthyBackends : Int
  totalBackends : Int

/-- `metrics.NewMetrics`: fresh zeroed counters and empty maps. -/
def NewMetrics : Metrics :=
  { totalRequests := 0, successfulRequests := 0, failedRequests := 0
  , backendRequests := fun _ => 0, backendFailures := fun _ => 0
  , healthCheckPasses := fun _ => 0, healthCheckFails := fun _ => 0
  , healthyBackends := 0, totalBackends := 0 }

/-- Increment of one key of a Go counter map. -/
def bumpKey (m : String → Int) (key : String) : String → Int :=
  fun k => if k = key then m key + 1 else m k

/-- `Metrics.RecordRequest`: a successful request (the `duration` argument is
accepted and ignored exactly as in the Go method, which stores no latency). -/
def RecordRequest (m : Metrics) (backend : String) (duration : Int) : Metrics :=
  { m with totalRequests := m.totalRequests + 1
         , successfulRequests := m.successfulRequests + 1
         , backendRequests := bumpKey m.backendRequests backend }

/-- `Metrics.RecordFailure`. -/
def RecordFailure (m : Metrics) (backend : String) : Metrics :=
  { m with totalRequests := m.totalRequests + 1
         , failedRequests := m.failedRequests + 1
         , backendFailures := bumpKey m.backendFailures backend }

/-- `Metrics.RecordHealthCheck`. -/
def RecordHealthCheck (m : Metrics) (backend : String) (success : Bool) : Metrics :=
  if success then { m with healthCheckPasses := bumpKey m.healthCheckPasses backend }
  else { m with healthCheckFails := bumpKey m.healthCheckFails backend }

/-- `Metrics.UpdateBackendCount`. -/
def UpdateBackendCount (m : Metrics) (healthy total : Int) : Metrics :=
  { m with healthyBackends := healthy, totalBackends := total }

/-- `metrics.MetricsSnapshot` minus its `Timestamp` field (a `time.Now()`
read, an external clock effect carrying no counter information). -/
structure MetricsSnapshot where
  TotalRequests : Int
  SuccessfulRequests : Int
  FailedRequests : Int
  HealthyBackends : Int
  TotalBackends : Int
deriving DecidableEq, Repr

/-- `Metrics.GetSnapshot`: an `RLock`-guarded read.  The method only reads the
receiver, so the model returns the unchanged state alongside the snapshot. -/
def GetSnapshot (m : Metrics) : Metrics × MetricsSnapshot :=
  (m, { TotalRequests := m.totalRequests
      , SuccessfulRequests := m.successfulRequests
      , FailedRequests := m.failedRequests
      , HealthyBackends := m.healthyBackends
      , TotalBackends := m.totalBackends })

/-! ### Health prober (`internal/healthcheck/healthcheck.go`) -/

/-- Outcome of one probe's external effects, as seen by `checkBackend`:
request construction failed, `client.Do` failed (with or without the context
deadline having fired), or a response with some status code arrived. -/
inductive ProbeResult where
  | createErr
  | doErr (deadlineExceeded : Bool)
  | resp (statusCode : Nat)
deriving DecidableEq, Repr

/-- `HealthChecker.checkBackend`, reduced to the `SetBackendHealth` calls it
issues (`(id, value)` pairs, in order): both failure paths call
`SetBackendHealth(id, false)` unconditionally; the response path computes
`healthy := status == 200` and calls `SetBackendHealth` only when the value
differs from the backend's current flag. -/
def checkBackend (backend : Backend) (pr : ProbeResult) : List (String × Bool) :=
  match pr with
  | .createErr => [(backend.ID, false)]
  | .doErr _ => [(backend.ID, false)]
  | .resp statusCode =>
    let healthy := statusCode = 200
    if backend.Healthy ≠ healthy then [(backend.ID, healthy)] else []

/-- Apply a list of `SetBackendHealth` calls to the pool, in order. -/
def applyHealthCalls (sp : ServerPool) (calls : List (String × Bool)) : ServerPool :=
  calls.foldl (fun pool call => SetBackendHealth pool call.1 call.2) sp

/-! ### Configuration validation (`internal/config`) -/

/-- `config.Config`.  Go `time.Duration` fields are `int64` nanosecond
counts, modelled as `Int`. -/
structure Config where
  Port : Int
  Backends : List String
  HealthCheckPath : String
  HealthCheckInterval : Int
  HealthCheckTimeout : Int
  BackendTimeout : Int
deriving Repr

/-- The `for i, backend := range c.Backends` loop of `ValidateConfig`: one
message per backend whose `url.Parse` fails.  `parse` is the external stdlib
parser, `i` the running index. -/
def backendURLErrors (parse : String → Except String ParsedURL) :
    Nat → List String → List String
  | _, [] => []
  | i, backend :: rest =>
    match parse backend with
    | .error e =>
      ("backend[" ++ Nat.repr i ++ "] '" ++ backend ++ "' is not a valid URL: " ++ e)
        :: backendURLErrors parse (i + 1) rest
    | .ok _ => backendURLErrors parse (i + 1) rest

/-- The `errors` slice accumulated by `ValidateConfig`, in source order.
`durationStr` is Go's external `time.Duration.String` formatting, used only
inside the timeout-relationship message. -/
def validationErrors (parse : String → Except String ParsedURL)
    (durationStr : Int → String) (c : Config) : List String :=
  (if c.Port ≤ 0 ∨ c.Port > 65535 then
    ["port " ++ toString c.Port ++ " must be between 1 and 65535"] else [])
  ++ (if c.Backends.length = 0 then ["at least one backend is required"] else [])
  ++ backendURLErrors parse 0 c.Backends
  ++ (if c.HealthCheckPath = "" then ["health check path cannot be empty"] else [])
  ++ (if c.HealthCheckInterval ≤ 0 then ["health check interval must be positive"] else [])
  ++ (if c.HealthCheckTimeout ≤ 0 then ["health check timeout must be positive"] else [])
  ++ (if c.HealthCheckTimeout ≥ c.HealthCheckInterval then
    ["health check timeout (" ++ durationStr c.HealthCheckTimeout
      ++ ") must be less than interval (" ++ durationStr c.HealthCheckInterval ++ ")"] else [])
  ++ (if c.BackendTimeout ≤ 0 then ["backend timeout must be positive"] else [])

/-- `config.ValidateConfig`: collect the violations, then — when any exist —
return an error whose message interpolates only `errors[0]`
(`fmt.Errorf("configuration validation failed:\n  - %s", errors[0])`);
`none` models the `nil` return. -/
def ValidateConfig (parse : String → Except String ParsedURL)
    (durationStr : Int → String) (c : Config) : Option String :=
  match validationErrors parse durationStr c with
  | [] => none
  | e :: _ => some ("configuration validation failed:\n  - " ++ e)

/-! ### Forwarding engine (`internal/balancer/balancer.go`) -/

/-- The mutable state of one assembled `LoadBalancer`: the server pool, the
round-robin strategy's atomic counter, and the metrics. -/
structure LBState where
  pool : ServerPool
  rrCounter : Int
  metrics : Metrics

/-- Outcome of the external HTTP effects of one forwarded request against a
given backend: `http.NewRequestWithContext` failed, `client.Do` failed (with
or without the context deadline having fired), or a backend response with a
status code and body arrived. -/
inductive DoOutcome where
  | createErr
  | doErr (deadlineExceeded : Bool)
  | resp (statusCode : Nat) (body : String)

/-- What `ServeHTTP` writes back to the caller.  `http.Error` bodies carry the
structured error's `Message` followed by the newline `http.Error` appends. -/
structure HttpResponse where
  status : Nat
  body : String
deriving DecidableEq, Repr

/-- `LoadBalancer.ServeHTTP` (together with its helper
`getNextHealthyBackend`), with the network modelled by the `outcome` oracle:
1. ask the strategy for a backend; on `nil` respond with the pool-empty or
   no-healthy-backends error's mapped status and message;
2. request construction failure responds with the request-failed status;
3. `client.Do` failure: classify timeout vs connection failure, record a
   metrics failure, immediately `SetBackendHealth(id, false)`, respond with
   the mapped status;
4. response with status ≥ 500: record a metrics failure, leave health alone,
   respond with the backend-response error's mapped status;
5. response with status < 500: record a metrics success and relay status and
   body (the measured latency is an external clock value, passed as 0). -/
def serveHTTP (s : LBState) (outcome : Backend → DoOutcome) : LBState × HttpResponse :=
  match NextBackend s.pool s.rrCounter with
  | (none, counter) =>
    if GetBackendCount s.pool = 0 then
      ({ s with rrCounter := counter },
       { status := HTTPStatusCode .ErrPoolEmpty, body := "server pool is empty\n" })
    else
      ({ s with rrCounter := counter },
       { status := HTTPStatusCode .ErrNoHealthyBackends
       , body := "no healthy backends available\n" })
  | (some backend, counter) =>
    match outcome backend with
    | .createErr =>
      ({ s with rrCounter := counter },
       { status := HTTPStatusCode .ErrRequestFailed, body := "request failed\n" })
    | .doErr deadlineExceeded =>
      ({ pool := SetBackendHealth s.pool backend.ID false
       , rrCounter := counter
       , metrics := RecordFailure s.metrics backend.ID },
       if deadlineExceeded then
         { status := HTTPStatusCode .ErrBackendTimeout
         , body := "backend timeout: " ++ backend.ID ++ "\n" }
       else
         { status := HTTPStatusCode .ErrBackendConnection
         , body := "backend connection failed: " ++ backend.ID ++ "\n" })
    | .resp statusCode body =>
      if statusCode ≥ 500 then
        ({ s with rrCounter := counter, metrics := RecordFailure s.metrics backend.ID },
         { status := HTTPStatusCode .ErrBackendResponse
         , body := "backend response error: " ++ backend.ID
             ++ " (status: " ++ Nat.repr statusCode ++ ")\n" })
      else
        ({ s with rrCounter := counter,
                  metrics := RecordRequest s.metrics backend.ID 0 },
         { status := statusCode, body := body })

/-! ### The assembled system -/

/-- One externally triggered event of the assembled system: an inbound
request (with its network oracle), one backend probe of a prober pass (with
its probe outcome), or a runtime membership change through
`LoadBalancer.AddBackend` / `LoadBalancer.RemoveBackend`. -/
inductive SysEvent where
  | request (outcome : Backend → DoOutcome)
  | probe (idx : Nat) (pr : ProbeResult)
  | addBackend (url : String)
  | removeBackend (id : String)

/-- The state transition performed by each event.  A failed `AddBackend`
leaves the pool unchanged; a probe of a stale index (backend since removed)
does nothing. -/
def sysStep (parse : String → Except String ParsedURL)
    (s : LBState) : SysEvent → LBState
  | .request outcome => (serveHTTP s outcome).1
  | .probe idx pr =>
    match s.pool.get? idx with
    | some backend => { s with pool := applyHealthCalls s.pool (checkBackend backend pr) }
    | none => s
  | .addBackend url =>
    match AddBackend parse s.pool url with
    | .ok pool => { s with pool := pool }
    | .error _ => s
  | .removeBackend id => { s with pool := (RemoveBackend s.pool id).1 }

/-- The initial pool built by `NewLoadBalancer` from the configured backend
URL list (construction aborts on the first parse error; reachable states come
from successfully constructed balancers, so only the all-parsed case arises). -/
def mkInitialPool (parse : String → Except String ParsedURL) :
    List String → ServerPool → ServerPool
  | [], sp => sp
  | url :: rest, sp =>
    match AddBackend parse sp url with
    | .ok sp' => mkInitialPool parse rest sp'
    | .error _ => sp

/-- Reachability of a system state: a freshly constructed balancer (any
backend list, counter 0, fresh metrics), closed under `sysStep` for any
event. -/
inductive Reachable (parse : String → Except String ParsedURL) : LBState → Prop where
  | init (urls : List String) :
      Reachable parse { pool := mkInitialPool parse urls []
                      , rrCounter := 0, metrics := NewMetrics }
  | step {s : LBState} (ev : SysEvent) :
      Reachable parse s → Reachable parse (sysStep parse s ev)

/-! ### Decimal representation facts

Backend ids are the strings `"backend-" ++ Nat.repr k`; distinctness of ids
reduces to injectivity of `Nat.repr`, proved here through a decoding
function. -/

/-- Numeric value of a decimal digit character. -/
def digitVal (c : Char) : Nat := c.toNat - 48

/-- Decode a most-significant-first decimal digit string. -/
def decodeDigits (l : List Char) : Nat :=
  l.foldl (fun a c => a * 10 + digitVal c) 0

/-- Most-significant-first digit characters of a natural number; the
fuel-free counterpart of core's `Nat.toDigitsCore` at base 10. -/
def natDigits (n : Nat) : List Char :=
  if n < 10 then [Nat.digitChar n]
  else natDigits (n / 10) ++ [Nat.digitChar (n % 10)]
termination_by n
decreasing_by exact Nat.div_lt_self (by omega) (by omega)

theorem natDigits_of_lt {n : Nat} (h : n < 10) : natDigits n = [Nat.digitChar n] := by
  rw [natDigits]
  simp [h]

theorem natDigits_of_ge {n : Nat} (h : ¬ n < 10) :
    natDigits n = natDigits (n / 10) ++ [Nat.digitChar (n % 10)] := by
  rw [natDigits]
  simp [h]

theorem toDigitsCore_eq_natDigits :
    ∀ (m n : Nat) (ds : List Char), n < 10 ^ (m + 1) →
      Nat.toDigitsCore 10 (m + 1) n ds = natDigits n ++ ds := by
  intro m
  induction m with
  | zero =>
    intro n ds h
    have h10 : n < 10 := by simpa using h
    have hdiv : n / 10 = 0 := Nat.div_eq_of_lt h10
    have hmod : n % 10 = n := Nat.mod_eq_of_lt h10
    simp [Nat.toDigitsCore, hdiv, hmod, natDigits_of_lt h10]
  | succ m ih =>
    intro n ds h
    by_cases h10 : n < 10
    · have hdiv : n / 10 = 0 := Nat.div_eq_of_lt h10
      have hmod : n % 10 = n := Nat.mod_eq_of_lt h10
      simp [Nat.toDigitsCore, hdiv, hmod, natDigits_of_lt h10]
    · have hdiv : n / 10 ≠ 0 := by
        intro h0
        exact h10 (by omega)
      have hlt : n / 10 < 10 ^ (m + 1) := by
        have : n < 10 * 10 ^ (m + 1) := by
          calc n < 10 ^ (m + 1 + 1) := h
          _ = 10 * 10 ^ (m + 1) := by ring
        exact Nat.div_lt_of_lt_mul this
      have hrec := ih (n / 10) (Nat.digitChar (n % 10) :: ds) hlt
      rw [natDigits_of_ge h10, List.append_assoc]
      generalize m + 1 = k at hrec ⊢
      simp only [Nat.toDigitsCore]
      simp [hdiv, hrec]

theorem toDigits_eq_natDigits (n : Nat) : Nat.toDigits 10 n = natDigits n := by
  have hn : n < 10 ^ (n + 1) := by
    have h1 : n < 10 ^ n := Nat.lt_pow_self (by omega) n
    have h2 : 10 ^ n ≤ 10 ^ (n + 1) := Nat.pow_le_pow_right (by omega) (by omega)
    omega
  have := toDigitsCore_eq_natDigits n n [] hn
  simpa [Nat.toDigits] using this

theorem digitVal_digitChar : ∀ n, n < 10 → digitVal (Nat.digitChar n) = n := by decide

theorem decodeDigits_natDigits : ∀ n, decodeDigits (natDigits n) = n := by
  intro n
  induction n using Nat.strong_induction_on with
  | _ n ih =>
    by_cases h : n < 10
    · rw [natDigits_of_lt h]
      simpa [decodeDigits] using digitVal_digitChar n h
    · rw [natDigits_of_ge h]
      have hrec := ih (n / 10) (Nat.div_lt_self (by omega) (by omega))
      have hd := digitVal_digitChar (n % 10) (Nat.mod_lt n (by omega))
      simp [decodeDigits, List.foldl_append] at hrec ⊢
      rw [hrec, hd]
      omega

theorem natDigits_injective : Function.Injective natDigits := by
  intro a b h
  have := congrArg decodeDigits h
  simpa [decodeDigits_natDigits] using this

theorem natRepr_injective : Function.Injective Nat.repr := by
  intro a b h
  have hdata : Nat.toDigits 10 a = Nat.toDigits 10 b := congrArg String.data h
  rw [toDigits_eq_natDigits, toDigits_eq_natDigits] at hdata
  exact natDigits_injective hdata

/-- Backend ids `"backend-" ++ Nat.repr i` are distinct for distinct `i`. -/
theorem backendId_injective :
    Function.Injective (fun i : Nat => "backend-" ++ Nat.repr i) := by
  intro i j h
  apply natRepr_injective
  apply String.ext
  have := congrArg String.data h
  simpa [String.data_append] using this

/-! ### Registry operation sequences -/

/-- One mutating registry operation, as exposed by the pool API. -/
inductive PoolOp where
  | add (url : String)
  | remove (id : String)
  | setHealth (id : String) (healthy : Bool)

/-- Effect of one operation on the pool; a failed `AddBackend` leaves the
pool unchanged (the error is returned to the caller). -/
def applyPoolOp (parse : String → Except String ParsedURL)
    (sp : ServerPool) : PoolOp → ServerPool
  | .add url =>
    match AddBackend parse sp url with
    | .ok sp' => sp'
    | .error _ => sp
  | .remove id => (RemoveBackend sp id).1
  | .setHealth id healthy => SetBackendHealth sp id healthy

/-- Effect of a sequence of operations, applied in order. -/
def applyPoolOps (parse : String → Except String ParsedURL)
    (sp : ServerPool) (ops : List PoolOp) : ServerPool :=
  ops.foldl (applyPoolOp parse) sp

theorem setBackendHealth_map_id (sp : ServerPool) (id : String) (healthy : Bool) :
    (SetBackendHealth sp id healthy).map Backend.ID = sp.map Backend.ID := by
  induction sp with
  | nil => rfl
  | cons backend rest ih =>
    by_cases h : backend.ID = id <;> simp [SetBackendHealth, h, ih]

/-- In a pool whose ids are distinct, `SetBackendHealth` leaves every entry
with the target id (there is at most one) carrying the written flag. -/
theorem setBackendHealth_sets {sp : ServerPool} {id : String} {healthy : Bool}
    (hnodup : (sp.map Backend.ID).Nodup) :
    ∀ backend ∈ SetBackendHealth sp id healthy, backend.ID = id →
      backend.Healthy = healthy := by
  induction sp with
  | nil => intro b hb; simp [SetBackendHealth] at hb
  | cons head rest ih =>
    simp only [List.map_cons, List.nodup_cons] at hnodup
    intro b hb hbid
    by_cases hhead : head.ID = id
    · simp only [SetBackendHealth, if_pos hhead] at hb
      rcases List.mem_cons.mp hb with h | h
      · subst h; rfl
      · exfalso
        apply hnodup.1
        rw [hhead, ← hbid]
        exact List.mem_map_of_mem Backend.ID h
    · simp only [SetBackendHealth, if_neg hhead] at hb
      rcases List.mem_cons.mp hb with h | h
      · exfalso; exact hhead (h ▸ hbid)
      · exact ih hnodup.2 b h hbid

/-- Ids already assigned are never rewritten: each operation either keeps the
id sequence (up to deleting entries) or appends one fresh id at the end. -/
theorem applyPoolOp_ids (parse : String → Except String ParsedURL)
    (sp : ServerPool) (op : PoolOp) :
    ((applyPoolOp parse sp op).map Backend.ID).Sublist (sp.map Backend.ID)
    ∨ ∃ newId, (applyPoolOp parse sp op).map Backend.ID
        = sp.map Backend.ID ++ [newId] := by
  cases op with
  | add url =>
    cases hp : parse url with
    | error e => left; simp [applyPoolOp, AddBackend, hp]
    | ok u =>
      right
      exact ⟨"backend-" ++ Nat.repr (sp.length + 1), by simp [applyPoolOp, AddBackend, hp]⟩
  | remove id =>
    left
    cases hf : sp.findIdx? (fun backend => backend.ID = id) with
    | none => simp [applyPoolOp, RemoveBackend, hf]
    | some i =>
      simp only [applyPoolOp, RemoveBackend, hf, removeFromSlice]
      by_cases hi : i < sp.length
      · simp only [if_pos hi]
        exact (List.eraseIdx_sublist sp i).map Backend.ID
      · simp [if_neg hi]
  | setHealth id healthy =>
    left
    simp only [applyPoolOp]
    rw [setBackendHealth_map_id]

/-- The canonical id sequence of a pool built by `n` successful adds. -/
def canonicalIds (n : Nat) : List String :=
  (List.range n).map (fun i => "backend-" ++ Nat.repr (i + 1))

theorem addBackend_canonical (parse : String → Except String ParsedURL)
    {sp : ServerPool} (hsp : sp.map Backend.ID = canonicalIds sp.length)
    (url : String) :
    (applyPoolOp parse sp (.add url)).map Backend.ID
      = canonicalIds (applyPoolOp parse sp (.add url)).length := by
  cases hp : parse url with
  | error e => simpa [applyPoolOp, AddBackend, hp] using hsp
  | ok u =>
    simp only [applyPoolOp, AddBackend, hp]
    simp [canonicalIds, List.range_succ, hsp]

/-- Invariant: an add-only history from the empty pool yields the canonical
id sequence. -/
theorem applyPoolOps_addOnly_canonical (parse : String → Except String ParsedURL) :
    ∀ (ops : List PoolOp) (sp : ServerPool),
      (∀ op ∈ ops, ∃ url, op = .add url) →
      sp.map Backend.ID = canonicalIds sp.length →
      (applyPoolOps parse sp ops).map Backend.ID
        = canonicalIds (applyPoolOps parse sp ops).length := by
  intro ops
  induction ops with
  | nil => intro sp _ hsp; simpa [applyPoolOps] using hsp
  | cons op rest ih =>
    intro sp hadds hsp
    obtain ⟨url, rfl⟩ := hadds op (List.mem_cons_self op rest)
    have hstep := addBackend_canonical parse hsp url
    have hrest : ∀ op ∈ rest, ∃ url, op = PoolOp.add url :=
      fun op hop => hadds op (List.mem_cons_of_mem _ hop)
    simpa [applyPoolOps] using ih (applyPoolOp parse sp (.add url)) hrest hstep

theorem canonicalIds_nodup (n : Nat) : (canonicalIds n).Nodup := by
  apply List.Nodup.map
  · intro i j h
    have := backendId_injective h
    omega
  · exact List.nodup_range n

/-! ### Round-robin lemmas -/

theorem wrap64_eq_self {x : Int} (h1 : -(2 ^ 63) ≤ x) (h2 : x < 2 ^ 63) :
    wrap64 x = x := by
  have e64 : (2 : Int) ^ 64 = 18446744073709551616 := by norm_num
  have e63 : (2 : Int) ^ 63 = 9223372036854775808 := by norm_num
  unfold wrap64
  rw [e63, e64]
  rw [e63] at h1 h2
  omega

theorem getBackendByIndex_mem {sp : ServerPool} {i : Int} {b : Backend}
    (h : GetBackendByIndex sp i = some b) : b ∈ sp := by
  unfold GetBackendByIndex at h
  split at h
  · exact List.get?_mem h
  · cases h

theorem nextBackendLoop_unhealthy {sp : ServerPool}
    (hall : ∀ b ∈ sp, b.Healthy = false) :
    ∀ (fuel : Nat) (c : Int), (nextBackendLoop sp c fuel).1 = none := by
  intro fuel
  induction fuel with
  | zero => intro c; rfl
  | succ fuel ih =>
    intro c
    simp only [nextBackendLoop]
    cases hg : GetBackendByIndex sp
        (Int.tmod (wrap64 (c + 1) - 1) (GetBackendCount sp : Int)) with
    | none => simp [hg, ih (wrap64 (c + 1))]
    | some b =>
      have hb := getBackendByIndex_mem hg
      simp [hg, hall b hb, ih (wrap64 (c + 1))]

/-- With every backend healthy, the first attempt of the loop succeeds: from
counter `k < n` the strategy picks index `k` and leaves the counter at
`k + 1`. -/
theorem nextBackend_all_healthy_step {sp : ServerPool} {k : Nat}
    (hlen : (sp.length : Int) < 2 ^ 63)
    (hall : ∀ b ∈ sp, b.Healthy = true)
    (hk : k < sp.length) :
    NextBackend sp (k : Int) = (sp.get? k, (k : Int) + 1) := by
  have e63 : (2 : Int) ^ 63 = 9223372036854775808 := by norm_num
  rw [e63] at hlen
  have hpos : GetBackendCount sp ≠ 0 := by
    unfold GetBackendCount; omega
  obtain ⟨m, hm⟩ : ∃ m, GetBackendCount sp = m + 1 :=
    ⟨GetBackendCount sp - 1, by omega⟩
  have hwrap : wrap64 ((k : Int) + 1) = (k : Int) + 1 := by
    apply wrap64_eq_self
    · rw [e63]; omega
    · rw [e63]; omega
  have hmod : Int.tmod (k : Int) ((GetBackendCount sp : Nat) : Int) = (k : Int) := by
    apply Int.tmod_eq_of_lt
    · omega
    · unfold GetBackendCount; omega
  obtain ⟨b, hb⟩ : ∃ b, sp.get? k = some b :=
    ⟨sp.get ⟨k, hk⟩, List.get?_eq_get hk⟩
  have hidx : GetBackendByIndex sp (k : Int) = some b := by
    unfold GetBackendByIndex
    rw [if_pos ⟨by omega, by omega⟩]
    simpa using hb
  unfold NextBackend
  rw [if_neg hpos, hm]
  rw [nextBackendLoop]
  rw [hwrap]
  have h1 : ((k : Int) + 1 - 1) = (k : Int) := by ring
  rw [h1, hmod, hidx]
  simp [hall b (getBackendByIndex_mem hidx), ← List.get?_eq_getElem?, hb]

/-- `k` consecutive `NextBackend` calls, threading the counter, collecting
the selections in order. -/
def rrRun (sp : ServerPool) : Int → Nat → List (Option Backend)
  | _, 0 => []
  | c, k + 1 =>
    let r := NextBackend sp c
    r.1 :: rrRun sp r.2 k

theorem rrRun_all_healthy_aux {sp : ServerPool}
    (hlen : (sp.length : Int) < 2 ^ 63)
    (hall : ∀ b ∈ sp, b.Healthy = true) :
    ∀ (d k : Nat), k + d = sp.length →
      rrRun sp (k : Int) d = (sp.drop k).map some := by
  intro d
  induction d with
  | zero =>
    intro k hk
    have : k = sp.length := by omega
    simp [rrRun, this, List.drop_length]
  | succ d ih =>
    intro k hk
    have hklt : k < sp.length := by omega
    have hstep := nextBackend_all_healthy_step hlen hall hklt
    have hrec := ih (k + 1) (by omega)
    have hget : sp.get? k = some (sp.get ⟨k, hklt⟩) := List.get?_eq_get hklt
    have hdrop : sp.drop k = sp.get ⟨k, hklt⟩ :: sp.drop (k + 1) := by
      rw [List.drop_eq_getElem_cons hklt]
      simp
    rw [hdrop]
    simp only [rrRun, hstep, hget, List.map_cons]
    have hcast : (k : Int) + 1 = ((k + 1 : Nat) : Int) := by push_cast; ring
    rw [hcast, hrec]

/-! ### Shared concrete inputs for witness theorems -/

/-- A URL parser that accepts everything (Go's `url.Parse` succeeds on all
the concrete URLs used below). -/
def parseOkStub : String → Except String ParsedURL :=
  fun _ => .ok { scheme := "http", host := "localhost:8080", port := "" }

/-- A duration formatter (only interpolated into one message text). -/
def durationStrStub : Int → String := fun _ => ""

/-- A concrete healthy backend. -/
def backend1 : Backend :=
  { ID := "backend-1", URL := { scheme := "http", host := "localhost:8080", port := "" }
  , Healthy := true, Port := 80 }

/-- A concrete unhealthy backend. -/
def backend1down : Backend := { backend1 with Healthy := false }

/-! ### Selection-failure lemmas -/

theorem nextBackend_none_of_unhealthy {sp : ServerPool}
    (hall : ∀ b ∈ sp, b.Healthy = false) (c : Int) :
    (NextBackend sp c).1 = none := by
  unfold NextBackend
  by_cases h : GetBackendCount sp = 0
  · simp [h]
  · simp [h, nextBackendLoop_unhealthy hall]

/-! ### Claim C1 -/

/-- C1, counterexample: a request hitting an empty registry is answered with
status 500 (the taxonomy maps the pool-empty error to 500), not the 503 the
claim states. -/
theorem c1_pool_empty_responds_500 :
    (serveHTTP { pool := [], rrCounter := 0, metrics := NewMetrics }
        (fun _ => .resp 200 "ok")).2
      = { status := 500, body := "server pool is empty\n" }
    ∧ (500 : Nat) ≠ 503 := by
  constructor
  · rfl
  · decide

/-- C1 (amended): when the strategy returns no backend, the engine responds
503 only in the no-healthy-backends case (backends registered, none
healthy); with an empty registry it responds 500, because the taxonomy maps
the pool-empty error to 500 and the no-healthy-backends error to 503. -/
theorem c1_selection_failure_statuses :
    (∀ (s : LBState) (outcome : Backend → DoOutcome), s.pool = [] →
      (serveHTTP s outcome).2 = { status := 500, body := "server pool is empty\n" })
    ∧ (∀ (s : LBState) (outcome : Backend → DoOutcome),
        s.pool ≠ [] → (∀ b ∈ s.pool, b.Healthy = false) →
        (serveHTTP s outcome).2
          = { status := 503, body := "no healthy backends available\n" })
    ∧ HTTPStatusCode .ErrPoolEmpty = 500
    ∧ HTTPStatusCode .ErrNoHealthyBackends = 503 := by
  refine ⟨?_, ?_, rfl, rfl⟩
  · rintro ⟨pool, c, m⟩ outcome hpool
    subst hpool
    rfl
  · rintro ⟨pool, c, m⟩ outcome hpool hall
    have hcount : GetBackendCount pool ≠ 0 := by
      unfold GetBackendCount
      simpa [List.length_eq_zero] using hpool
    rcases hnb : NextBackend pool c with ⟨bOpt, c'⟩
    have : bOpt = none := by
      have := nextBackend_none_of_unhealthy hall c
      rw [hnb] at this
      exact this
    subst this
    simp [serveHTTP, hnb, hcount, HTTPStatusCode]

/-- C1 witness: the amended statement at an empty pool and at a pool holding
one unhealthy backend. -/
theorem c1_selection_failure_statuses_witness :
    (serveHTTP { pool := [], rrCounter := 0, metrics := NewMetrics }
        (fun _ => .resp 200 "ok")).2
      = { status := 500, body := "server pool is empty\n" }
    ∧ (serveHTTP { pool := [backend1down], rrCounter := 0, metrics := NewMetrics }
        (fun _ => .resp 200 "ok")).2
      = { status := 503, body := "no healthy backends available\n" } :=
  ⟨c1_selection_failure_statuses.1 _ _ rfl,
   c1_selection_failure_statuses.2.1 _ _ (by decide) (by decide)⟩

/-! ### Claim C2 -/

/-- The configuration of the claim's scenario: out-of-range port, empty
backend list, non-positive backend timeout (intervals in nanoseconds). -/
def cfgC2 : Config :=
  { Port := 99999, Backends := [], HealthCheckPath := "/"
  , HealthCheckInterval := 10000000000, HealthCheckTimeout := 2000000000
  , BackendTimeout := 0 }

/-- C2: on a configuration violating three rules at once, `ValidateConfig`
does collect three violations internally, but the error value it returns
carries only the first message (`errors[0]`); the aggregated list never
reaches the caller, contradicting the claim (and the repository's own
`TestValidationErrorAggregation`, which expects a `ValidationError` carrying
every violation). -/
theorem c2_validation_drops_all_but_first :
    (validationErrors parseOkStub durationStrStub cfgC2).length = 3
    ∧ ValidateConfig parseOkStub durationStrStub cfgC2
      = some "configuration validation failed:\n  - port 99999 must be between 1 and 65535" := by
  constructor
  · rfl
  · rfl

/-! ### Claim C9 -/

theorem backendURLErrors_nil (parse : String → Except String ParsedURL) :
    ∀ (i : Nat) (l : List String), (∀ b ∈ l, ∃ u, parse b = .ok u) →
      backendURLErrors parse i l = [] := by
  intro i l
  induction l generalizing i with
  | nil => intro _; rfl
  | cons b rest ih =>
    intro h
    obtain ⟨u, hu⟩ := h b (List.mem_cons_self b rest)
    simp [backendURLErrors, hu,
      ih (i + 1) (fun x hx => h x (List.mem_cons_of_mem _ hx))]

/-- C9: every valid configuration — port in [1,65535], a non-empty list of
parseable backend URLs, non-empty health-check path, positive interval and
timeout with timeout < interval, positive backend timeout — passes
validation with no error. -/
theorem c9_valid_config_passes
    (parse : String → Except String ParsedURL) (durationStr : Int → String)
    (c : Config)
    (h1 : 1 ≤ c.Port) (h2 : c.Port ≤ 65535)
    (h3 : c.Backends ≠ [])
    (h4 : ∀ b ∈ c.Backends, ∃ u, parse b = .ok u)
    (h5 : c.HealthCheckPath ≠ "")
    (h6 : 0 < c.HealthCheckInterval)
    (h7 : 0 < c.HealthCheckTimeout)
    (h8 : c.HealthCheckTimeout < c.HealthCheckInterval)
    (h9 : 0 < c.BackendTimeout) :
    ValidateConfig parse durationStr c = none := by
  have herrs : validationErrors parse durationStr c = [] := by
    unfold validationErrors
    rw [backendURLErrors_nil parse 0 c.Backends h4]
    have hb : ¬ c.Backends.length = 0 := by
      simpa [List.length_eq_zero] using h3
    rw [if_neg (by omega), if_neg hb, if_neg h5, if_neg (by omega),
      if_neg (by omega), if_neg (by omega), if_neg (by omega)]
    rfl
  unfold ValidateConfig
  rw [herrs]

/-- The default configuration of the CLI layer (durations in nanoseconds). -/
def cfgValid : Config :=
  { Port := 8000, Backends := ["http://localhost:8080"], HealthCheckPath := "/"
  , HealthCheckInterval := 10000000000, HealthCheckTimeout := 2000000000
  , BackendTimeout := 30000000000 }

/-- C9 witness: the default configuration validates cleanly. -/
theorem c9_valid_config_passes_witness :
    ValidateConfig parseOkStub durationStrStub cfgValid = none :=
  c9_valid_config_passes parseOkStub durationStrStub cfgValid
    (by decide) (by decide) (by decide)
    (fun b _ => ⟨{ scheme := "http", host := "localhost:8080", port := "" }, rfl⟩)
    (by decide) (by decide) (by decide) (by decide) (by decide)

/-! ### Claim C3 -/

/-- C3, counterexample: after `Add, Add, Remove("backend-1"), Add` the id
`backend-2` is assigned a second time while the first `backend-2` survives,
so the registry holds two backends with the same identifier. -/
theorem c3_duplicate_id_after_remove_add :
    (applyPoolOps parseOkStub []
        [.add "http://localhost:8080", .add "http://localhost:8081",
         .remove "backend-1", .add "http://localhost:8082"]).map Backend.ID
      = ["backend-2", "backend-2"]
    ∧ ¬ ((applyPoolOps parseOkStub []
        [.add "http://localhost:8080", .add "http://localhost:8081",
         .remove "backend-1", .add "http://localhost:8082"]).map Backend.ID).Nodup := by
  constructor
  · rfl
  · decide

/-- C3 (amended): identifiers are immutable once assigned — every operation
either keeps the existing id sequence (possibly deleting entries) or appends
one new id — and identifiers are unique for any add-only history from the
empty registry; a Remove followed by an Add may however reuse an identifier
still held by a surviving backend. -/
theorem c3_ids_immutable_and_addonly_unique :
    (∀ (parse : String → Except String ParsedURL) (sp : ServerPool) (op : PoolOp),
      ((applyPoolOp parse sp op).map Backend.ID).Sublist (sp.map Backend.ID)
      ∨ ∃ newId, (applyPoolOp parse sp op).map Backend.ID
          = sp.map Backend.ID ++ [newId])
    ∧ (∀ (parse : String → Except String ParsedURL) (ops : List PoolOp),
        (∀ op ∈ ops, ∃ url, op = .add url) →
        ((applyPoolOps parse [] ops).map Backend.ID).Nodup) := by
  refine ⟨applyPoolOp_ids, ?_⟩
  intro parse ops hadds
  rw [applyPoolOps_addOnly_canonical parse ops [] hadds rfl]
  exact canonicalIds_nodup _

/-- C3 witness: the amended statement at a health write on a singleton pool
and at a two-add history. -/
theorem c3_ids_immutable_and_addonly_unique_witness :
    (((applyPoolOp parseOkStub [backend1] (.setHealth "backend-1" false)).map
        Backend.ID).Sublist ([backend1].map Backend.ID)
      ∨ ∃ newId, (applyPoolOp parseOkStub [backend1]
          (.setHealth "backend-1" false)).map Backend.ID
            = [backend1].map Backend.ID ++ [newId])
    ∧ ((applyPoolOps parseOkStub []
        [.add "http://localhost:8080", .add "http://localhost:8081"]).map
          Backend.ID).Nodup :=
  ⟨c3_ids_immutable_and_addonly_unique.1 parseOkStub [backend1] _,
   c3_ids_immutable_and_addonly_unique.2 parseOkStub _ (by
     intro op hop
     simp only [List.mem_cons, List.not_mem_nil, or_false] at hop
     rcases hop with rfl | rfl
     · exact ⟨"http://localhost:8080", rfl⟩
     · exact ⟨"http://localhost:8081", rfl⟩)⟩

/-! ### Claim C4 -/

/-- A second and third healthy backend with the canonical ids. -/
def backend2 : Backend :=
  { ID := "backend-2", URL := { scheme := "http", host := "localhost:8081", port := "" }
  , Healthy := true, Port := 80 }

def backend3 : Backend :=
  { ID := "backend-3", URL := { scheme := "http", host := "localhost:8082", port := "" }
  , Healthy := true, Port := 80 }

def pool3 : ServerPool := [backend1, backend2, backend3]

/-- C4: round-robin correctness.  With all `N` backends healthy and a fresh
counter, `N` consecutive `NextBackend` calls return the backends in
registration order, each exactly once (call `c` selects index `(c-1) mod N`);
on an empty pool the strategy returns none and leaves the counter alone; and
when no backend is healthy, the `N`-attempt loop returns none.  The
`2 ^ 63` bound reflects the `int64` range of a Go slice length. -/
theorem c4_round_robin :
    (∀ sp : ServerPool, (sp.length : Int) < 2 ^ 63 →
      (∀ b ∈ sp, b.Healthy = true) →
      rrRun sp 0 sp.length = sp.map some)
    ∧ (∀ c : Int, NextBackend [] c = (none, c))
    ∧ (∀ (sp : ServerPool) (c : Int), (∀ b ∈ sp, b.Healthy = false) →
        (NextBackend sp c).1 = none) := by
  refine ⟨?_, fun c => rfl, fun sp c hall => nextBackend_none_of_unhealthy hall c⟩
  intro sp hlen hall
  have := rrRun_all_healthy_aux hlen hall sp.length 0 (by omega)
  simpa using this

/-- C4 witness: the cycle property at a three-backend healthy pool, the
empty pool, and a pool with one unhealthy backend. -/
theorem c4_round_robin_witness :
    ((pool3.length : Int) < 2 ^ 63 ∧ (∀ b ∈ pool3, b.Healthy = true))
    ∧ rrRun pool3 0 pool3.length = pool3.map some
    ∧ NextBackend [] 7 = (none, 7)
    ∧ (∀ b ∈ [backend1down], b.Healthy = false)
    ∧ (NextBackend [backend1down] 0).1 = none :=
  ⟨⟨by decide, by decide⟩,
   c4_round_robin.1 pool3 (by decide) (by decide),
   c4_round_robin.2.1 7,
   by decide,
   c4_round_robin.2.2 [backend1down] 0 (by decide)⟩

/-! ### Claim C5 -/

/-- C5, counterexample: a backend answering 500 is reported to the caller as
502 (the mapped status of the backend-response error), not as the backend's
own status, contradicting the claim's "relays the backend's status". -/
theorem c5_5xx_answered_with_502 :
    (serveHTTP { pool := [backend1], rrCounter := 0, metrics := NewMetrics }
        (fun _ => .resp 500 "backend body")).2.status = 502
    ∧ (502 : Nat) ≠ 500 := by
  constructor
  · rfl
  · decide

/-- C5 (amended): when the chosen backend responds with status ≥ 500 the
engine records a metrics failure for it and responds with the taxonomy's
backend-response status 502 (the backend's own status is not relayed), and
the registry — in particular the backend's health flag — is unchanged. -/
theorem c5_5xx_records_failure_health_unchanged
    (s : LBState) (outcome : Backend → DoOutcome) (b : Backend) (c : Int)
    (st : Nat) (body : String)
    (hnb : NextBackend s.pool s.rrCounter = (some b, c))
    (hout : outcome b = .resp st body)
    (hst : 500 ≤ st) :
    (serveHTTP s outcome).2.status = 502
    ∧ (serveHTTP s outcome).1.metrics = RecordFailure s.metrics b.ID
    ∧ (serveHTTP s outcome).1.pool = s.pool := by
  simp only [serveHTTP, hnb, hout, if_pos (show st ≥ 500 from hst)]
  refine ⟨?_, ?_, ?_⟩ <;> trivial

/-- C5 witness: the amended statement at a one-backend pool whose backend
answers 503. -/
theorem c5_5xx_records_failure_health_unchanged_witness :
    NextBackend [backend1] 0 = (some backend1, 1)
    ∧ ((serveHTTP { pool := [backend1], rrCounter := 0, metrics := NewMetrics }
          (fun _ => .resp 503 "unavailable")).2.status = 502
      ∧ (serveHTTP { pool := [backend1], rrCounter := 0, metrics := NewMetrics }
          (fun _ => .resp 503 "unavailable")).1.metrics
        = RecordFailure NewMetrics backend1.ID
      ∧ (serveHTTP { pool := [backend1], rrCounter := 0, metrics := NewMetrics }
          (fun _ => .resp 503 "unavailable")).1.pool = [backend1]) :=
  ⟨by decide,
   c5_5xx_records_failure_health_unchanged
     { pool := [backend1], rrCounter := 0, metrics := NewMetrics }
     (fun _ => .resp 503 "unavailable") backend1 1 503 "unavailable"
     (by decide) rfl (by decide)⟩

/-! ### Claim C6 -/

/-- C6: when `client.Do` fails, the engine classifies the failure as timeout
(504) when the deadline fired and as connection failure (502) otherwise,
records a metrics failure for the chosen backend, and immediately writes
`SetBackendHealth(id, false)` into the registry — so with distinct ids the
chosen backend's flag is unhealthy from this request on, without waiting for
a probe. -/
theorem c6_connection_failure_marks_unhealthy
    (s : LBState) (outcome : Backend → DoOutcome) (b : Backend) (c : Int)
    (dl : Bool)
    (hnb : NextBackend s.pool s.rrCounter = (some b, c))
    (hout : outcome b = .doErr dl) :
    ((serveHTTP s outcome).2.status = if dl then 504 else 502)
    ∧ (serveHTTP s outcome).1.metrics = RecordFailure s.metrics b.ID
    ∧ (serveHTTP s outcome).1.pool = SetBackendHealth s.pool b.ID false
    ∧ ((s.pool.map Backend.ID).Nodup →
        ∀ b' ∈ (serveHTTP s outcome).1.pool, b'.ID = b.ID →
          b'.Healthy = false) := by
  simp only [serveHTTP, hnb, hout]
  refine ⟨?_, ?_, ?_, ?_⟩
  · cases dl <;> rfl
  · trivial
  · trivial
  · intro hnodup b' hb' hid
    exact setBackendHealth_sets hnodup b' hb' hid

/-- C6 witness: the theorem at a one-backend pool whose outbound request
times out. -/
theorem c6_connection_failure_marks_unhealthy_witness :
    (NextBackend [backend1] 0 = (some backend1, 1)
      ∧ ([backend1].map Backend.ID).Nodup)
    ∧ (((serveHTTP { pool := [backend1], rrCounter := 0, metrics := NewMetrics }
          (fun _ => .doErr true)).2.status = if true then 504 else 502)
      ∧ (serveHTTP { pool := [backend1], rrCounter := 0, metrics := NewMetrics }
          (fun _ => .doErr true)).1.metrics = RecordFailure NewMetrics backend1.ID
      ∧ (serveHTTP { pool := [backend1], rrCounter := 0, metrics := NewMetrics }
          (fun _ => .doErr true)).1.pool = SetBackendHealth [backend1] backend1.ID false
      ∧ (([backend1].map Backend.ID).Nodup →
          ∀ b' ∈ (serveHTTP { pool := [backend1], rrCounter := 0, metrics := NewMetrics }
              (fun _ => .doErr true)).1.pool, b'.ID = backend1.ID →
            b'.Healthy = false)) :=
  ⟨⟨by decide, by decide⟩,
   c6_connection_failure_marks_unhealthy
     { pool := [backend1], rrCounter := 0, metrics := NewMetrics }
     (fun _ => .doErr true) backend1 1 true (by decide) rfl⟩

/-! ### Claim C7 -/

/-- C7, counterexample: a probe of an already-unhealthy backend that fails
again at the connection level issues `SetBackendHealth(id, false)` anyway —
the computed health (false) equals the current flag, yet a call is made,
contradicting "no SetHealth call is made". -/
theorem c7_failed_probe_writes_unconditionally :
    checkBackend backend1down (.doErr false) = [("backend-1", false)]
    ∧ backend1down.Healthy = false := by
  constructor
  · rfl
  · rfl

/-- C7 (amended): the computed-differs-from-current guard exists only on the
response path — there `SetBackendHealth` is called exactly when
`status == 200` differs from the current flag (so a no-change probe leaves
the registry untouched) — while the request-construction-failure and
`client.Do`-failure paths call `SetBackendHealth(id, false)` unconditionally,
even for an already-unhealthy backend. -/
theorem c7_sethealth_guard_only_on_response_path :
    (∀ b : Backend, checkBackend b .createErr = [(b.ID, false)])
    ∧ (∀ (b : Backend) (dl : Bool), checkBackend b (.doErr dl) = [(b.ID, false)])
    ∧ (∀ (b : Backend) (st : Nat), b.Healthy = decide (st = 200) →
        checkBackend b (.resp st) = [])
    ∧ (∀ (b : Backend) (st : Nat), b.Healthy ≠ decide (st = 200) →
        checkBackend b (.resp st) = [(b.ID, decide (st = 200))])
    ∧ (∀ (sp : ServerPool) (b : Backend) (st : Nat),
        b.Healthy = decide (st = 200) →
        applyHealthCalls sp (checkBackend b (.resp st)) = sp) := by
  refine ⟨fun b => rfl, fun b dl => rfl, ?_, ?_, ?_⟩
  · intro b st h
    simp [checkBackend, h]
  · intro b st h
    simp [checkBackend, h]
  · intro sp b st h
    simp [checkBackend, h, applyHealthCalls]

/-- C7 witness: the amended statement at a healthy backend probed with 200
(no write), an unhealthy backend probed with 200 (one write), and the
registry left untouched by the no-change probe. -/
theorem c7_sethealth_guard_only_on_response_path_witness :
    checkBackend backend1 .createErr = [("backend-1", false)]
    ∧ checkBackend backend1 (.doErr false) = [("backend-1", false)]
    ∧ (backend1.Healthy = decide ((200 : Nat) = 200)
      ∧ checkBackend backend1 (.resp 200) = [])
    ∧ (backend1down.Healthy ≠ decide ((200 : Nat) = 200)
      ∧ checkBackend backend1down (.resp 200) = [("backend-1", decide ((200 : Nat) = 200))])
    ∧ applyHealthCalls [backend1] (checkBackend backend1 (.resp 200)) = [backend1] :=
  ⟨c7_sethealth_guard_only_on_response_path.1 backend1,
   c7_sethealth_guard_only_on_response_path.2.1 backend1 false,
   ⟨by decide, c7_sethealth_guard_only_on_response_path.2.2.1 backend1 200 (by decide)⟩,
   ⟨by decide, c7_sethealth_guard_only_on_response_path.2.2.2.1 backend1down 200 (by decide)⟩,
   c7_sethealth_guard_only_on_response_path.2.2.2.2 [backend1] backend1 200 (by decide)⟩

/-! ### Claim C8 -/

/-- C8, counterexample: two metrics states that differ in a per-backend
health-check pass counter produce the same snapshot, so the snapshot cannot
contain the per-backend health-check (or per-backend request/failure)
counters the claim lists. -/
theorem c8_snapshot_misses_per_backend_counters :
    (GetSnapshot NewMetrics).2
      = (GetSnapshot (RecordHealthCheck NewMetrics "backend-1" true)).2
    ∧ NewMetrics.healthCheckPasses "backend-1" = 0
    ∧ (RecordHealthCheck NewMetrics "backend-1" true).healthCheckPasses "backend-1" = 1 := by
  refine ⟨rfl, rfl, ?_⟩
  decide

/-- C8 (amended): the snapshot contains exactly the total, successful and
failed request counts and the healthy/total backend gauges — each equal to
the live counter at the time — and producing it leaves the metrics state
untouched; the per-backend request/failure and health-check pass/fail maps
are not part of the snapshot (changing them cannot change the snapshot). -/
theorem c8_snapshot_contents :
    ∀ m : Metrics,
      (GetSnapshot m).1 = m
      ∧ (GetSnapshot m).2.TotalRequests = m.totalRequests
      ∧ (GetSnapshot m).2.SuccessfulRequests = m.successfulRequests
      ∧ (GetSnapshot m).2.FailedRequests = m.failedRequests
      ∧ (GetSnapshot m).2.HealthyBackends = m.healthyBackends
      ∧ (GetSnapshot m).2.TotalBackends = m.totalBackends
      ∧ (∀ f g h i,
          (GetSnapshot { m with backendRequests := f, backendFailures := g
                              , healthCheckPasses := h, healthCheckFails := i }).2
            = (GetSnapshot m).2) :=
  fun m => ⟨rfl, rfl, rfl, rfl, rfl, rfl, fun f g h i => rfl⟩

/-! ### Claim C10 -/

theorem serveHTTP_metrics_cases (s : LBState) (outcome : Backend → DoOutcome) :
    (serveHTTP s outcome).1.metrics = s.metrics
    ∨ (∃ id, (serveHTTP s outcome).1.metrics = RecordFailure s.metrics id)
    ∨ (∃ id d, (serveHTTP s outcome).1.metrics = RecordRequest s.metrics id d) := by
  rcases hnb : NextBackend s.pool s.rrCounter with ⟨bOpt, c⟩
  cases bOpt with
  | none =>
    left
    simp only [serveHTTP, hnb]
    split <;> rfl
  | some b =>
    cases hout : outcome b with
    | createErr =>
      left
      simp only [serveHTTP, hnb, hout]
    | doErr dl =>
      right; left
      refine ⟨b.ID, ?_⟩
      simp only [serveHTTP, hnb, hout]
    | resp st body =>
      by_cases hst : st ≥ 500
      · right; left
        refine ⟨b.ID, ?_⟩
        simp only [serveHTTP, hnb, hout, if_pos hst]
      · right; right
        refine ⟨b.ID, 0, ?_⟩
        simp only [serveHTTP, hnb, hout, if_neg hst]

/-- C10: in every reachable state of the assembled system neither
`RecordHealthCheck` nor `UpdateBackendCount` has ever been applied — the
forwarding engine only records request successes/failures and the prober
touches no metrics — so the backend-count gauges of every snapshot are 0 and
every per-backend health-check pass/fail counter is 0, regardless of the
registry's contents. -/
theorem c10_health_metrics_never_updated
    (parse : String → Except String ParsedURL) (s : LBState)
    (h : Reachable parse s) :
    s.metrics.healthyBackends = 0 ∧ s.metrics.totalBackends = 0
    ∧ (∀ id, s.metrics.healthCheckPasses id = 0)
    ∧ (∀ id, s.metrics.healthCheckFails id = 0)
    ∧ (GetSnapshot s.metrics).2.HealthyBackends = 0
    ∧ (GetSnapshot s.metrics).2.TotalBackends = 0 := by
  induction h with
  | init urls => exact ⟨rfl, rfl, fun _ => rfl, fun _ => rfl, rfl, rfl⟩
  | @step s ev hreach ih =>
    obtain ⟨ih1, ih2, ih3, ih4, _, _⟩ := ih
    cases ev with
    | request outcome =>
      rcases serveHTTP_metrics_cases s outcome with hm | ⟨id, hm⟩ | ⟨id, d, hm⟩ <;>
        simp only [sysStep, hm, RecordFailure, RecordRequest] <;>
        exact ⟨ih1, ih2, ih3, ih4, ih1, ih2⟩
    | probe idx pr =>
      cases hg : s.pool.get? idx <;>
        simp only [sysStep, hg] <;>
        exact ⟨ih1, ih2, ih3, ih4, ih1, ih2⟩
    | addBackend url =>
      cases hadd : AddBackend parse s.pool url <;>
        simp only [sysStep, hadd] <;>
        exact ⟨ih1, ih2, ih3, ih4, ih1, ih2⟩
    | removeBackend id =>
      exact ⟨ih1, ih2, ih3, ih4, ih1, ih2⟩

/-- C10 witness: the zero gauges at a freshly constructed balancer. -/
theorem c10_health_metrics_never_updated_witness :
    (GetSnapshot ({ pool := mkInitialPool parseOkStub ["http://localhost:8080"] []
                  , rrCounter := 0, metrics := NewMetrics } : LBState).metrics).2.HealthyBackends = 0
    ∧ (GetSnapshot ({ pool := mkInitialPool parseOkStub ["http://localhost:8080"] []
                    , rrCounter := 0, metrics := NewMetrics } : LBState).metrics).2.TotalBackends = 0 :=
  ⟨(c10_health_metrics_never_updated parseOkStub _
      (Reachable.init ["http://localhost:8080"])).2.2.2.2.1,
   (c10_health_metrics_never_updated parseOkStub _
      (Reachable.init ["http://localhost:8080"])).2.2.2.2.2⟩

end GoBalancer
